import Mathlib

/-!
Shallow embedding of src/tt_download_bot.py (a Telegram media-download bot).

Conventions of the embedding:
* Python strings that are scanned character by character (regex search,
  substring tests) are modelled as `List Char`; display-only strings stay
  `String`.
* Each regex in URL_PATTERNS has the shape
  protocol ++ optional www. ++ domain alternative ++ literal tail ++ [^\s]+ ,
  so a pattern is compiled to the finite list of its literal heads; a match
  at a position is "some head leads the remaining text, followed by a
  non-empty maximal run of non-whitespace characters" (the greedy [^\s]+).
  re.search scans start positions left to right.
* time.time() timestamps are modelled as integer seconds (the fractional
  part of the float plays no role in any property here), the global dict
  URL_CACHE as an association list in insertion order, uuid.uuid4() output
  as an arbitrary 36-character string of the canonical lowercase-hex
  8-4-4-4-12 shape supplied as an input.
* The aiogram / yt_dlp collaborators (message edits, uploads, probe and
  download results, os.path.exists, os.remove) are modelled as oracle
  arguments and an explicit effect trace, mirroring the control flow of the
  handlers statement by statement.
-/

/-- Python ASCII whitespace class used by the regular-expression token for
whitespace (space, tab, newline, carriage return, vertical tab, form feed). -/
def pySpace (c : Char) : Bool :=
  decide (c = ' ') || decide (c = '\t') || decide (c = '\n') ||
  decide (c = '\r') || decide (c = '\x0b') || decide (c = '\x0c')

/-- leads p s : the list p is a leading segment of s. -/
def leads : List Char → List Char → Bool
  | [], _ => true
  | _ :: _, [] => false
  | c :: p, d :: s => decide (c = d) && leads p s

/-- containsSeg key s : key occurs as a contiguous segment of s
(the Python substring test used by the in operator). -/
def containsSeg (key : List Char) : List Char → Bool
  | [] => key.isEmpty
  | c :: rest => leads key (c :: rest) || containsSeg key rest

/-- Literal heads of the tiktok regex
(https?://(?:www\.)?(?:tiktok\.com|vm\.tiktok\.com)/[^\s]+). -/
def tiktokPats : List (List Char) :=
  [ "https://www.tiktok.com/".toList, "https://www.vm.tiktok.com/".toList,
    "https://tiktok.com/".toList, "https://vm.tiktok.com/".toList,
    "http://www.tiktok.com/".toList, "http://www.vm.tiktok.com/".toList,
    "http://tiktok.com/".toList, "http://vm.tiktok.com/".toList ]

/-- Literal heads of the youtube regex
(https?://(?:www\.)?(?:youtube\.com|youtu\.be)/[^\s]+). -/
def youtubePats : List (List Char) :=
  [ "https://www.youtube.com/".toList, "https://www.youtu.be/".toList,
    "https://youtube.com/".toList, "https://youtu.be/".toList,
    "http://www.youtube.com/".toList, "http://www.youtu.be/".toList,
    "http://youtube.com/".toList, "http://youtu.be/".toList ]

/-- Literal heads of the instagram regex
(https?://(?:www\.)?instagram\.com/[^\s]+). -/
def instagramPats : List (List Char) :=
  [ "https://www.instagram.com/".toList, "https://instagram.com/".toList,
    "http://www.instagram.com/".toList, "http://instagram.com/".toList ]

/-- Literal heads of the vk regex (https?://(?:www\.)?vk\.com/video[^\s]+). -/
def vkPats : List (List Char) :=
  [ "https://www.vk.com/video".toList, "https://vk.com/video".toList,
    "http://www.vk.com/video".toList, "http://vk.com/video".toList ]

/-- Literal heads of the pinterest regex
(https?://(?:www\.)?pinterest\.[^\s]+). -/
def pinterestPats : List (List Char) :=
  [ "https://www.pinterest.".toList, "https://pinterest.".toList,
    "http://www.pinterest.".toList, "http://pinterest.".toList ]

/-- URL_PATTERNS of the source, in dict insertion order: key and the
compiled literal heads of its regex. -/
def URL_PATTERNS : List (String × List (List Char)) :=
  [ ("tiktok", tiktokPats), ("youtube", youtubePats),
    ("instagram", instagramPats), ("vk", vkPats),
    ("pinterest", pinterestPats) ]

/-- All literal heads of every pattern; used to talk about where a URL can
start inside a text. -/
def allPats : List (List Char) :=
  tiktokPats ++ youtubePats ++ instagramPats ++ vkPats ++ pinterestPats

/-- The youtu.be heads of the youtube pattern, the only heads that do not
contain their own dict key as a substring. -/
def youtuBePats : List (List Char) :=
  [ "https://www.youtu.be/".toList, "https://youtu.be/".toList,
    "http://www.youtu.be/".toList, "http://youtu.be/".toList ]

/-- Attempt of one literal head at the start of s: the head must lead s and
be followed by at least one non-whitespace character; the greedy tail takes
the maximal non-whitespace run. Returns the full matched URL. -/
def tryPat (pat : List Char) (s : List Char) : Option (List Char) :=
  if leads pat s then
    let rest := (s.drop pat.length).takeWhile (fun c => !(pySpace c))
    if rest.isEmpty then none else some (pat ++ rest)
  else none

/-- First literal head of one regex that matches at the start of s
(at a given position at most one head can match, so the order is moot). -/
def matchPats : List (List Char) → List Char → Option (List Char)
  | [], _ => none
  | pat :: ps, s =>
    match tryPat pat s with
    | some r => some r
    | none => matchPats ps s

/-- re.search for one regex: scan start positions left to right. -/
def searchPats (ps : List (List Char)) : List Char → Option (List Char)
  | [] => none
  | c :: cs =>
    match matchPats ps (c :: cs) with
    | some r => some r
    | none => searchPats ps cs

/-- Iteration of extract_url over URL_PATTERNS.values() in dict order. -/
def findPlat : List (String × List (List Char)) → List Char → Option (List Char)
  | [], _ => none
  | kp :: rest, t =>
    match searchPats kp.2 t with
    | some u => some u
    | none => findPlat rest t

/-- extract_url of the source: first pattern in dict order whose search
succeeds wins; returns the matched URL. -/
def extract_url (t : List Char) : Option (List Char) :=
  findPlat URL_PATTERNS t

/-- urlStartAt t i : some supported-platform URL match begins at position i
of t. -/
def urlStartAt (t : List Char) (i : Nat) : Bool :=
  allPats.any (fun pat => (tryPat pat (t.drop i)).isSome)

/-- Python str.capitalize for the ASCII keys of URL_PATTERNS: first
character upper-cased, the rest lower-cased. -/
def pyCapitalize (s : String) : String :=
  match s.toList with
  | [] => ""
  | c :: cs => String.mk (c.toUpper :: cs.map Char.toLower)

/-- detect_platform of the source: first dict key that occurs as a
substring of the url, capitalized; otherwise "Unknown". -/
def detect_platform (url : List Char) : String :=
  match URL_PATTERNS.find? (fun kp => containsSeg kp.1.toList url) with
  | some kp => pyCapitalize kp.1
  | none => "Unknown"

/-- Session id generation of build_type_keyboard:
str(uuid.uuid4())[:8], the first 8 characters of the uuid string. -/
def sessionIdOfUuid (u : List Char) : List Char :=
  u.take 8

/-- Lowercase hexadecimal digit, the alphabet of str(uuid.uuid4()). -/
def isLowerHex (c : Char) : Bool :=
  decide (c = '0') || decide (c = '1') || decide (c = '2') || decide (c = '3') ||
  decide (c = '4') || decide (c = '5') || decide (c = '6') || decide (c = '7') ||
  decide (c = '8') || decide (c = '9') || decide (c = 'a') || decide (c = 'b') ||
  decide (c = 'c') || decide (c = 'd') || decide (c = 'e') || decide (c = 'f')

/-- Modelled from the format of Python uuid: str(uuid.uuid4()) is 36
characters, lowercase hex in the canonical 8-4-4-4-12 grouping separated by
dashes. The generator is random; the model quantifies over all well-formed
outputs. -/
def validUuid (u : List Char) : Bool :=
  decide (u.length = 36) &&
  (u.take 8).all isLowerHex && decide (u.getD 8 ' ' = '-') &&
  ((u.drop 9).take 4).all isLowerHex && decide (u.getD 13 ' ' = '-') &&
  ((u.drop 14).take 4).all isLowerHex && decide (u.getD 18 ' ' = '-') &&
  ((u.drop 19).take 4).all isLowerHex && decide (u.getD 23 ' ' = '-') &&
  ((u.drop 24).take 12).all isLowerHex

/-- Numeric value of one lowercase hex digit. -/
def hexDigitVal (c : Char) : Nat :=
  if c = '0' then 0 else if c = '1' then 1 else if c = '2' then 2 else
  if c = '3' then 3 else if c = '4' then 4 else if c = '5' then 5 else
  if c = '6' then 6 else if c = '7' then 7 else if c = '8' then 8 else
  if c = '9' then 9 else if c = 'a' then 10 else if c = 'b' then 11 else
  if c = 'c' then 12 else if c = 'd' then 13 else if c = 'e' then 14 else
  if c = 'f' then 15 else 0

/-- Numeric value of a big-endian string of hex digits. -/
def hexVal : List Char → Nat
  | [] => 0
  | c :: cs => hexDigitVal c * 16 ^ cs.length + hexVal cs

/-- Lowercase hex digit of a value below 16. -/
def hexChar (n : Nat) : Char :=
  if n = 0 then '0' else if n = 1 then '1' else if n = 2 then '2' else
  if n = 3 then '3' else if n = 4 then '4' else if n = 5 then '5' else
  if n = 6 then '6' else if n = 7 then '7' else if n = 8 then '8' else
  if n = 9 then '9' else if n = 10 then 'a' else if n = 11 then 'b' else
  if n = 12 then 'c' else if n = 13 then 'd' else if n = 14 then 'e' else
  if n = 15 then 'f' else ' '

/-- Big-endian hex rendering of n into k digits. -/
def hexStrN : Nat → Nat → List Char
  | 0, _ => []
  | k + 1, n => hexChar (n / 16 ^ k) :: hexStrN k (n % 16 ^ k)

/-- One record of URL_CACHE: the dict literal with keys url and time written
at session creation. -/
structure SessionEntry where
  url : String
  time : Int
  deriving DecidableEq

/-- URL_CACHE, the module-level dict from session id to entry, in insertion
order. -/
abbrev Store : Type := List (String × SessionEntry)

/-- Dict lookup URL_CACHE.get(uid). -/
def getEntry : Store → String → Option SessionEntry
  | [], _ => none
  | kv :: rest, uid => if kv.1 = uid then some kv.2 else getEntry rest uid

/-- Dict assignment URL_CACHE[uid] = entry: overwrite in place if the key
exists, otherwise append in insertion order. -/
def putEntry : Store → String → SessionEntry → Store
  | [], uid, e => [(uid, e)]
  | kv :: rest, uid, e =>
    if kv.1 = uid then (uid, e) :: rest else kv :: putEntry rest uid e

/-- CACHE_TTL of the source: 15 * 60 seconds. -/
def CACHE_TTL : Int := 15 * 60

/-- Sleep interval of the cleanup loop: asyncio.sleep(300), 5 minutes. -/
def SWEEP_SLEEP : Int := 300

/-- Retention test of the sweep body: an entry survives when
now - entry.time > ttl is false. -/
def keepEntry (now ttl : Int) (kv : String × SessionEntry) : Bool :=
  !(decide (now - kv.2.time > ttl))

/-- One sweep: delete exactly the keys collected by
[k for k, v in URL_CACHE.items() if now - v.time > CACHE_TTL]. -/
def sweepStore (s : Store) (now ttl : Int) : Store :=
  s.filter (keepEntry now ttl)

/-- Body of one iteration of cleanup_cache, at the source constant TTL. -/
def cleanup_cache_once (s : Store) (now : Int) : Store :=
  sweepStore s now CACHE_TTL

/-- One entry of info.formats as consumed by build_quality_keyboard:
f.get returns None when the key is absent. -/
structure Fmt where
  vcodec : Option String
  ext : Option String
  height : Option Nat
  format_id : Option String
  deriving DecidableEq

/-- Python truthiness of f.get("height"): present and non-zero. -/
def heightTruthy : Option Nat → Bool
  | none => false
  | some h => decide (h ≠ 0)

/-- Filter of the quality loop:
f.get("vcodec") != "none" and f.get("ext") == "mp4" and f.get("height"). -/
def passesVideoFilter (f : Fmt) : Bool :=
  decide (f.vcodec ≠ some "none") && decide (f.ext = some "mp4") &&
  heightTruthy f.height

/-- Python str() of an optional value, as interpolated into an f-string. -/
def pyOptStr : Option String → String
  | none => "None"
  | some s => s

/-- Button label of one passing encoding. -/
def heightLabel (f : Fmt) : String :=
  toString (f.height.getD 0) ++ "p"

/-- One inline button: display text and callback data. -/
structure Button where
  text : String
  callback_data : String
  deriving DecidableEq

/-- The quality-button loop of build_quality_keyboard (before the fallback
and the chunking). -/
def qualityButtons (formats : List Fmt) (media_type uid : String) : List Button :=
  formats.filterMap (fun f =>
    if passesVideoFilter f then
      some ⟨heightLabel f,
            "dl|" ++ media_type ++ "|" ++ pyOptStr f.format_id ++ "|" ++ uid⟩
    else none)

/-- Row chunking rows = [buttons[i:i+3] for i in range(0, len(buttons), 3)]. -/
def chunk3 {α : Type} : List α → List (List α)
  | [] => []
  | [a] => [[a]]
  | [a, b] => [[a, b]]
  | a :: b :: c :: rest => [a, b, c] :: chunk3 rest

/-- build_quality_keyboard of the source: filtered quality buttons, a
single fallback button when none pass, chunked into rows of three. -/
def build_quality_keyboard (formats : List Fmt) (media_type uid : String) :
    List (List Button) :=
  let qb := qualityButtons formats media_type uid
  let qb := if qb.isEmpty
    then [⟨"Лучшее доступное", "dl|" ++ media_type ++ "|best|" ++ uid⟩]
    else qb
  chunk3 qb

/-- build_type_keyboard of the source: generate the session id from the
uuid draw, insert the session into URL_CACHE, return the new store and the
three type buttons. -/
def build_type_keyboard (store : Store) (url : String) (uuidStr : List Char)
    (now : Int) : Store × List (List Button) :=
  let uid : String := String.mk (sessionIdOfUuid uuidStr)
  (putEntry store uid ⟨url, now⟩,
   [[⟨"🎞 Видео", "type|video|" ++ uid⟩,
     ⟨"🎧 Аудио", "type|audio|" ++ uid⟩,
     ⟨"🖼 Превью", "type|thumbnail|" ++ uid⟩]])

/-- Observable step of a handler: a message edit (with an optional inline
keyboard), an upload, the prompt deletion, or the os.remove attempt in the
finally block (ok records whether the removal succeeded; either way the
error is swallowed). -/
inductive Effect where
  | editText (text : String) (kb : Option (List (List Button)))
  | answerAudio (file : String)
  | answerPhoto (file : String)
  | answerVideo (file : String)
  | deleteMessage
  | removeAttempt (path : String) (ok : Bool)
  deriving DecidableEq

/-- Expired-session notice shared by both callback handlers. -/
def expiredText : String := "⚠️ Сессия устарела. Отправь ссылку заново."

/-- Result of get_video_info: title and formats of the probed url. -/
structure VideoInfoM where
  title : String
  formats : List Fmt
  deriving DecidableEq

/-- cb_select_type of the source, after callback-data parsing. probe is the
oracle for get_video_info(url) (None models the logged failure). Returns
the effect trace and the store, which the handler never mutates. -/
def cb_select_type (store : Store) (media_type uid : String)
    (probe : String → Option VideoInfoM) : List Effect × Store :=
  match getEntry store uid with
  | none => ([.editText expiredText none], store)
  | some entry =>
    match probe entry.url with
    | none =>
      ([.editText "⏳ Получаю список форматов..." none,
        .editText "🚫 Не удалось получить информацию о видео." none], store)
    | some info =>
      ([.editText "⏳ Получаю список форматов..." none,
        .editText ("🎥 <b>" ++ info.title ++ "</b>\nВыбери качество:")
          (some (build_quality_keyboard info.formats media_type uid))], store)

/-- Result of cb_download: effect trace, the store (never mutated by the
handler), and whether an exception escapes the handler. -/
structure DlRes where
  effects : List Effect
  store : Store
  raised : Bool
  deriving DecidableEq

/-- cb_download of the source, after callback-data parsing. fetch is the
oracle for download_media(url, fmt_id, media_type) (None models the logged
failure), pathEx for os.path.exists, uploadOk for the try block of the
upload (send plus prompt deletion; False models the caught exception, after
which the error notice is shown), rmOk for os.remove (failures are
swallowed by the inner try). -/
def cb_download (store : Store) (media_type fmt_id uid : String)
    (fetch : String → String → String → Option String)
    (pathEx : String → Bool) (uploadOk rmOk : Bool) : DlRes :=
  match getEntry store uid with
  | none => ⟨[.editText expiredText none], store, false⟩
  | some entry =>
    let pre := Effect.editText "⬇️ Загружаю файл, подожди немного..." none
    match fetch entry.url fmt_id media_type with
    | none => ⟨[pre, .editText "🚫 Ошибка загрузки." none], store, false⟩
    | some path =>
      if path = "" ∨ pathEx path = false then
        ⟨[pre, .editText "🚫 Ошибка загрузки." none], store, false⟩
      else
        let send : Effect :=
          if media_type = "audio" then .answerAudio path
          else if media_type = "thumbnail" then .answerPhoto path
          else .answerVideo path
        let deliver : List Effect :=
          if uploadOk then [send, .deleteMessage]
          else [.editText "⚠️ Ошибка при отправке файла." none]
        ⟨pre :: deliver ++ [.removeAttempt path rmOk], store, false⟩

/-- Format list of the dedup scenario: mp4 video encodings with heights
360, 720, 720, 1080 in that order. -/
def demoFormats : List Fmt :=
  [ ⟨some "h264", some "mp4", some 360, some "f360"⟩,
    ⟨some "h264", some "mp4", some 720, some "f720a"⟩,
    ⟨some "h264", some "mp4", some 720, some "f720b"⟩,
    ⟨some "h264", some "mp4", some 1080, some "f1080"⟩ ]

/-- Format list with two passing mp4 video encodings, used for the
non-video keyboard scenario. -/
def demo2Formats : List Fmt :=
  [ ⟨some "h264", some "mp4", some 360, some "f360"⟩,
    ⟨some "h264", some "mp4", some 720, some "f720"⟩ ]

theorem chunk3_flatten {α : Type} (l : List α) : (chunk3 l).flatten = l := by
  induction l using chunk3.induct <;> simp [chunk3, *]

theorem qualityButtons_eq (fmts : List Fmt) (mt uid : String) :
    qualityButtons fmts mt uid
      = (fmts.filter passesVideoFilter).map (fun f =>
          ⟨heightLabel f, "dl|" ++ mt ++ "|" ++ pyOptStr f.format_id ++ "|" ++ uid⟩) := by
  induction fmts with
  | nil => rfl
  | cons f fs ih =>
    by_cases h : passesVideoFilter f <;>
      simp_all [qualityButtons, List.filterMap_cons, List.filter_cons]

theorem quality_labels (fmts : List Fmt) (mt uid : String) :
    (build_quality_keyboard fmts mt uid).flatten.map Button.text
      = if (fmts.filter passesVideoFilter).isEmpty
          then ["Лучшее доступное"]
          else (fmts.filter passesVideoFilter).map heightLabel := by
  unfold build_quality_keyboard
  rw [qualityButtons_eq]
  rcases hf : fmts.filter passesVideoFilter with _ | ⟨f, fs⟩
  · simp [chunk3]
  · simp only [List.map_cons, List.isEmpty_cons, if_neg]
    rw [chunk3_flatten]
    simp

theorem getEntry_putEntry (s : Store) (uid : String) (e : SessionEntry) :
    getEntry (putEntry s uid e) uid = some e := by
  induction s with
  | nil => simp [putEntry, getEntry]
  | cons kv rest ih =>
    by_cases h : kv.1 = uid <;> simp [putEntry, getEntry, h, ih]

theorem cb_select_type_store (s : Store) (mt uid : String)
    (probe : String → Option VideoInfoM) :
    (cb_select_type s mt uid probe).2 = s := by
  rcases hg : getEntry s uid with _ | entry
  · simp [cb_select_type, hg]
  · rcases hp : probe entry.url with _ | info <;> simp [cb_select_type, hg, hp]

theorem cb_download_store (s : Store) (mt fmt uid : String)
    (fetch : String → String → String → Option String)
    (pathEx : String → Bool) (upOk rmOk : Bool) :
    (cb_download s mt fmt uid fetch pathEx upOk rmOk).store = s := by
  rcases hg : getEntry s uid with _ | entry
  · simp [cb_download, hg]
  · rcases hf : fetch entry.url fmt mt with _ | path
    · simp [cb_download, hg, hf]
    · by_cases hp : path = "" ∨ pathEx path = false <;>
        simp [cb_download, hg, hf, hp]

theorem getEntry_filter_none (s : Store) (uid : String)
    (q : String × SessionEntry → Bool)
    (h : uid ∉ s.map Prod.fst) : getEntry (s.filter q) uid = none := by
  induction s with
  | nil => rfl
  | cons kv rest ih =>
    simp only [List.map_cons, List.mem_cons, not_or] at h
    obtain ⟨h1, h2⟩ := h
    have h1' : ¬ kv.1 = uid := fun hh => h1 hh.symm
    rw [List.filter_cons]
    by_cases hq : q kv = true
    · simp [hq, getEntry, h1', ih h2]
    · simp [hq, ih h2]

theorem sweep_keeps (s : Store) (uid : String) (e : SessionEntry) (now ttl : Int)
    (hget : getEntry s uid = some e)
    (hkeep : keepEntry now ttl (uid, e) = true) :
    getEntry (sweepStore s now ttl) uid = some e := by
  induction s with
  | nil => simp [getEntry] at hget
  | cons kv rest ih =>
    obtain ⟨k, v⟩ := kv
    by_cases h : k = uid
    · subst h
      have hv : v = e := by simpa [getEntry] using hget
      subst hv
      simp [sweepStore, List.filter_cons, hkeep, getEntry]
    · have hget' : getEntry rest uid = some e := by simpa [getEntry, h] using hget
      have hr := ih hget'
      simp only [sweepStore, List.filter_cons] at hr ⊢
      by_cases hq : keepEntry now ttl (k, v) = true <;>
        simp [hq, getEntry, h, hr]

theorem sweep_drops (s : Store) (uid : String) (e : SessionEntry) (now ttl : Int)
    (hnd : (s.map Prod.fst).Nodup)
    (hget : getEntry s uid = some e)
    (hdrop : keepEntry now ttl (uid, e) = false) :
    getEntry (sweepStore s now ttl) uid = none := by
  induction s with
  | nil => simp [getEntry] at hget
  | cons kv rest ih =>
    obtain ⟨k, v⟩ := kv
    simp only [List.map_cons, List.nodup_cons] at hnd
    by_cases h : k = uid
    · subst h
      have hv : v = e := by simpa [getEntry] using hget
      subst hv
      simp only [sweepStore, List.filter_cons, hdrop]
      exact getEntry_filter_none rest k _ hnd.1
    · have hget' : getEntry rest uid = some e := by simpa [getEntry, h] using hget
      have hr := ih hnd.2 hget'
      simp only [sweepStore, List.filter_cons] at hr ⊢
      by_cases hq : keepEntry now ttl (k, v) = true <;>
        simp [hq, getEntry, h, hr]

theorem sweep_idem (s : Store) (now ttl : Int) :
    sweepStore (sweepStore s now ttl) now ttl = sweepStore s now ttl := by
  simp [sweepStore, List.filter_filter]

/-- Store with one live session, used as a concrete scenario by several
witnesses. -/
def demoStore : Store := [("aa", ⟨"https://vk.com/video1", 0⟩)]

/-- C1 (amended): the format selector does not deduplicate by height. For
media_type "video" it emits one choice per encoding that has a video codec,
mp4 container and a truthy height, labelled "{height}p", in source order
with duplicate heights retained; when none passes, the single fallback
choice is emitted. For heights [360, 720, 720, 1080] this yields the four
choices 360p, 720p, 720p, 1080p in that order. -/
theorem quality_choices_no_dedup (fmts : List Fmt) (mt uid : String) :
    ((build_quality_keyboard fmts mt uid).flatten.map Button.text
      = if (fmts.filter passesVideoFilter).isEmpty
          then ["Лучшее доступное"]
          else (fmts.filter passesVideoFilter).map heightLabel)
    ∧ ((build_quality_keyboard demoFormats "video" "uid1").flatten.map Button.text
      = ["360p", "720p", "720p", "1080p"]) :=
  ⟨quality_labels fmts mt uid, by decide⟩

/-- C1 counterexample: for encodings with heights [360, 720, 720, 1080]
(all mp4, with video codec) the selector produces four choices with 720p
repeated, not the three deduplicated choices the claim states. -/
theorem quality_choices_dedup_cex :
    ((build_quality_keyboard demoFormats "video" "uid1").flatten.map Button.text
      = ["360p", "720p", "720p", "1080p"])
    ∧ ((build_quality_keyboard demoFormats "video" "uid1").flatten.map Button.text
      ≠ ["360p", "720p", "1080p"]) := by decide

/-- C2 (amended): build_quality_keyboard ignores media_type when filtering:
for a non-video media_type the keyboard shows exactly the same labels as
for video (the media_type only changes the callback payload), and it
degenerates to the single fallback button only when no encoding passes the
video filter. -/
theorem nonvideo_keyboard_same_as_video (fmts : List Fmt) (uid mt : String)
    (h : mt ≠ "video") :
    ((build_quality_keyboard fmts mt uid).flatten.map Button.text
      = (build_quality_keyboard fmts "video" uid).flatten.map Button.text)
    ∧ ((fmts.filter passesVideoFilter).isEmpty = true →
        build_quality_keyboard fmts mt uid
          = [[⟨"Лучшее доступное", "dl|" ++ mt ++ "|best|" ++ uid⟩]]) := by
  constructor
  · exact (quality_labels fmts mt uid).trans (quality_labels fmts "video" uid).symm
  · intro hEmp
    have h0 : fmts.filter passesVideoFilter = [] := List.isEmpty_iff.mp hEmp
    unfold build_quality_keyboard
    rw [qualityButtons_eq, h0]
    simp [chunk3]

theorem nonvideo_keyboard_same_as_video_witness :
    (("audio" : String) ≠ "video")
    ∧ ((build_quality_keyboard demo2Formats "audio" "u2").flatten.map Button.text
      = (build_quality_keyboard demo2Formats "video" "u2").flatten.map Button.text) :=
  ⟨by decide, (nonvideo_keyboard_same_as_video demo2Formats "u2" "audio" (by decide)).1⟩

/-- C2 counterexample: with two mp4 video encodings available, the keyboard
for media_type "audio" shows the two quality choices 360p and 720p, not the
single fallback button the claim states. -/
theorem nonvideo_keyboard_cex :
    ((build_quality_keyboard demo2Formats "audio" "uid2").flatten.map Button.text
      = ["360p", "720p"])
    ∧ ((build_quality_keyboard demo2Formats "audio" "uid2").flatten.map Button.text
      ≠ ["Лучшее доступное"]) := by decide

/-- C3 (amended): after a successful delivery at the end of cb_download the
session id is still retrievable from the store: the handler never mutates
URL_CACHE, so a subsequent get returns the original entry (only the sweeper
removes it later). -/
theorem delivery_keeps_session (store : Store) (mt fmt uid path : String)
    (e : SessionEntry)
    (fetch : String → String → String → Option String)
    (pathEx : String → Bool) (rmOk : Bool)
    (hget : getEntry store uid = some e)
    (hfetch : fetch e.url fmt mt = some path)
    (hpath : ¬ path = "")
    (hex : pathEx path = true) :
    Effect.deleteMessage ∈ (cb_download store mt fmt uid fetch pathEx true rmOk).effects
    ∧ (cb_download store mt fmt uid fetch pathEx true rmOk).store = store
    ∧ getEntry (cb_download store mt fmt uid fetch pathEx true rmOk).store uid
      = some e := by
  refine ⟨?_, cb_download_store store mt fmt uid fetch pathEx true rmOk, ?_⟩
  · simp [cb_download, hget, hfetch, hpath, hex]
  · rw [cb_download_store]
    exact hget

theorem delivery_keeps_session_witness :
    getEntry demoStore "aa" = some ⟨"https://vk.com/video1", 0⟩
    ∧ getEntry (cb_download demoStore "video" "137" "aa"
        (fun _ _ _ => some "v.mp4") (fun _ => true) true true).store "aa"
      = some ⟨"https://vk.com/video1", 0⟩ :=
  ⟨by decide,
   (delivery_keeps_session demoStore "video" "137" "aa" "v.mp4"
      ⟨"https://vk.com/video1", 0⟩ (fun _ _ _ => some "v.mp4") (fun _ => true)
      true (by decide) rfl (by decide) rfl).2.2⟩

/-- C3 counterexample: a successful delivery (upload succeeded, prompt
deleted) leaves the session in the store; the subsequent get returns the
entry rather than NotFound. -/
theorem delivery_keeps_session_cex :
    Effect.deleteMessage ∈ (cb_download demoStore "video" "137" "aa"
        (fun _ _ _ => some "v.mp4") (fun _ => true) true true).effects
    ∧ getEntry (cb_download demoStore "video" "137" "aa"
        (fun _ _ _ => some "v.mp4") (fun _ => true) true true).store "aa"
      = some ⟨"https://vk.com/video1", 0⟩ := by decide

/-- C6: a SelectType or SelectQuality action whose session id is absent
from the store yields exactly the expired-session notice: the handler edits
the prompt once with the notice, leaves the store unchanged, performs no
other effect, and no exception escapes. -/
theorem missing_session_expired_notice (store : Store) (mt fmt uid : String)
    (probe : String → Option VideoInfoM)
    (fetch : String → String → String → Option String)
    (pathEx : String → Bool) (upOk rmOk : Bool)
    (h : getEntry store uid = none) :
    cb_select_type store mt uid probe = ([.editText expiredText none], store)
    ∧ cb_download store mt fmt uid fetch pathEx upOk rmOk
      = ⟨[.editText expiredText none], store, false⟩ := by
  constructor <;> simp [cb_select_type, cb_download, h]

theorem missing_session_expired_notice_witness :
    getEntry ([] : Store) "deadbeef" = none
    ∧ cb_select_type ([] : Store) "video" "deadbeef" (fun _ => none)
      = ([.editText expiredText none], [])
    ∧ cb_download ([] : Store) "video" "137" "deadbeef"
        (fun _ _ _ => none) (fun _ => false) true true
      = ⟨[.editText expiredText none], [], false⟩ :=
  ⟨rfl,
   (missing_session_expired_notice [] "video" "137" "deadbeef" (fun _ => none)
      (fun _ _ _ => none) (fun _ => false) true true rfl).1,
   (missing_session_expired_notice [] "video" "137" "deadbeef" (fun _ => none)
      (fun _ _ _ => none) (fun _ => false) true true rfl).2⟩

/-- C7: whenever cb_download obtained a file (download returned a non-empty
path that exists), the os.remove attempt on that file is the last step of
the handler in every case, whether the upload succeeds or raises, and
neither the upload failure nor a removal failure propagates out of the
handler. -/
theorem downloaded_file_always_removed (store : Store) (mt fmt uid path : String)
    (e : SessionEntry)
    (fetch : String → String → String → Option String)
    (pathEx : String → Bool) (upOk rmOk : Bool)
    (hget : getEntry store uid = some e)
    (hfetch : fetch e.url fmt mt = some path)
    (hpath : ¬ path = "")
    (hex : pathEx path = true) :
    ((cb_download store mt fmt uid fetch pathEx upOk rmOk).effects.getLast?
      = some (.removeAttempt path rmOk))
    ∧ (cb_download store mt fmt uid fetch pathEx upOk rmOk).raised = false := by
  constructor
  · by_cases hu : upOk = true <;>
      simp [cb_download, hget, hfetch, hpath, hex, hu, List.getLast?]
  · simp [cb_download, hget, hfetch, hpath, hex]

theorem downloaded_file_always_removed_witness :
    getEntry demoStore "aa" = some ⟨"https://vk.com/video1", 0⟩
    ∧ ((cb_download demoStore "video" "137" "aa" (fun _ _ _ => some "out.mp4")
        (fun _ => true) false false).effects.getLast?
      = some (.removeAttempt "out.mp4" false))
    ∧ (cb_download demoStore "video" "137" "aa" (fun _ _ _ => some "out.mp4")
        (fun _ => true) false false).raised = false := by
  have h := downloaded_file_always_removed demoStore "video" "137" "aa" "out.mp4"
    ⟨"https://vk.com/video1", 0⟩ (fun _ _ _ => some "out.mp4") (fun _ => true)
    false false (by decide) rfl (by decide) rfl
  exact ⟨by decide, h.1, h.2⟩

/-- C8: one sweep iteration deletes every entry whose age strictly exceeds
the TTL, so a subsequent get for such an entry returns NotFound, and
sweeping twice at the same instant equals sweeping once, both for a generic
TTL and for the source constant CACHE_TTL. -/
theorem sweep_removes_expired (store : Store) (now ttl : Int) (uid : String)
    (e : SessionEntry)
    (hnd : (store.map Prod.fst).Nodup)
    (hget : getEntry store uid = some e)
    (hexp : now - e.time > ttl) :
    getEntry (sweepStore store now ttl) uid = none
    ∧ sweepStore (sweepStore store now ttl) now ttl = sweepStore store now ttl
    ∧ cleanup_cache_once (cleanup_cache_once store now) now
      = cleanup_cache_once store now := by
  refine ⟨?_, sweep_idem store now ttl, ?_⟩
  · apply sweep_drops store uid e now ttl hnd hget
    simp [keepEntry, hexp]
  · simpa [cleanup_cache_once] using sweep_idem store now CACHE_TTL

theorem sweep_removes_expired_witness :
    ((demoStore.map Prod.fst).Nodup)
    ∧ getEntry demoStore "aa" = some ⟨"https://vk.com/video1", 0⟩
    ∧ ((1000 : Int) - 0 > 900)
    ∧ getEntry (sweepStore demoStore 1000 900) "aa" = none :=
  ⟨by decide, by decide, by decide,
   (sweep_removes_expired demoStore 1000 900 "aa" ⟨"https://vk.com/video1", 0⟩
      (by decide) (by decide) (by decide)).1⟩

/-- C9: creating a session (build_type_keyboard inserts the id generated
from the uuid draw) and immediately looking the id up returns the original
url with the creation timestamp intact, and the lookup performed by
cb_select_type leaves the store, hence the creation timestamp, unchanged
(no sliding expiry). -/
theorem put_get_roundtrip (store : Store) (url : String) (uu : List Char)
    (now : Int) (mt : String) (probe : String → Option VideoInfoM) :
    getEntry (build_type_keyboard store url uu now).1
        (String.mk (sessionIdOfUuid uu)) = some ⟨url, now⟩
    ∧ (cb_select_type (build_type_keyboard store url uu now).1 mt
        (String.mk (sessionIdOfUuid uu)) probe).2
      = (build_type_keyboard store url uu now).1 :=
  ⟨getEntry_putEntry store (String.mk (sessionIdOfUuid uu)) ⟨url, now⟩,
   cb_select_type_store _ mt (String.mk (sessionIdOfUuid uu)) probe⟩

/-- C10: expiry is enforced only by the sweeper, never at lookup time: for
an entry past the TTL that is still in the store, both handlers proceed on
their normal path (their first effect is the progress edit, not the expired
notice); a sweep at or before the expiry instant keeps the entry while a
sweep after it removes it, and the source constants are TTL = 15 minutes
with a 5-minute sweep interval, so a stale session stays usable until the
first sweep after expiry, at most TTL plus one interval after creation. -/
theorem lookup_ignores_expiry (store : Store) (uid : String) (e : SessionEntry)
    (now s1 s2 : Int) (mt fmt : String)
    (probe : String → Option VideoInfoM)
    (fetch : String → String → String → Option String)
    (pathEx : String → Bool) (upOk rmOk : Bool)
    (hget : getEntry store uid = some e)
    (hstale : now - e.time > CACHE_TTL)
    (hnd : (store.map Prod.fst).Nodup)
    (h1 : s1 ≤ e.time + CACHE_TTL)
    (h2 : s2 - e.time > CACHE_TTL) :
    (cb_select_type store mt uid probe).1.head?
      = some (.editText "⏳ Получаю список форматов..." none)
    ∧ (cb_download store mt fmt uid fetch pathEx upOk rmOk).effects.head?
      = some (.editText "⬇️ Загружаю файл, подожди немного..." none)
    ∧ getEntry (cleanup_cache_once store s1) uid = some e
    ∧ getEntry (cleanup_cache_once store s2) uid = none
    ∧ CACHE_TTL = 15 * 60 ∧ SWEEP_SLEEP = 300 := by
  refine ⟨?_, ?_, ?_, ?_, rfl, rfl⟩
  · rcases hp : probe e.url with _ | info <;> simp [cb_select_type, hget, hp]
  · rcases hf : fetch e.url fmt mt with _ | path
    · simp [cb_download, hget, hf]
    · by_cases hc : path = "" ∨ pathEx path = false <;>
        simp [cb_download, hget, hf, hc]
  · simp only [cleanup_cache_once]
    apply sweep_keeps store uid e s1 CACHE_TTL hget
    simp only [keepEntry, Bool.not_eq_true', decide_eq_false_iff_not]
    omega
  · simp only [cleanup_cache_once]
    apply sweep_drops store uid e s2 CACHE_TTL hnd hget
    simp [keepEntry, h2]

theorem lookup_ignores_expiry_witness :
    getEntry demoStore "aa" = some ⟨"https://vk.com/video1", 0⟩
    ∧ ((1000 : Int) - 0 > CACHE_TTL)
    ∧ ((cb_select_type demoStore "video" "aa" (fun _ => none)).1.head?
      = some (.editText "⏳ Получаю список форматов..." none))
    ∧ getEntry (cleanup_cache_once demoStore 900) "aa"
      = some ⟨"https://vk.com/video1", 0⟩
    ∧ getEntry (cleanup_cache_once demoStore 1000) "aa" = none := by
  have h := lookup_ignores_expiry demoStore "aa" ⟨"https://vk.com/video1", 0⟩
    1000 900 1000 "video" "137" (fun _ => none) (fun _ _ _ => none)
    (fun _ => false) true true (by decide) (by decide) (by decide) (by decide)
    (by decide)
  exact ⟨by decide, by decide, h.1, h.2.2.1, h.2.2.2.1⟩

theorem hexCharVal (c : Char) (hc : isLowerHex c = true) :
    hexDigitVal c < 16 ∧ hexChar (hexDigitVal c) = c := by
  simp only [isLowerHex, Bool.or_eq_true, decide_eq_true_eq] at hc
  rcases hc with ((((((((((((((h|h)|h)|h)|h)|h)|h)|h)|h)|h)|h)|h)|h)|h)|h)|h <;>
    subst h <;> decide

theorem hexRound (l : List Char) (h : l.all isLowerHex = true) :
    hexVal l < 16 ^ l.length ∧ hexStrN l.length (hexVal l) = l := by
  induction l with
  | nil => exact ⟨by norm_num [hexVal], rfl⟩
  | cons c cs ih =>
    rw [List.all_cons, Bool.and_eq_true] at h
    obtain ⟨hc, hcs⟩ := h
    obtain ⟨hv, hd⟩ := hexCharVal c hc
    obtain ⟨ihb, ihs⟩ := ih hcs
    have hL : (0:ℕ) < 16 ^ cs.length := pow_pos (by norm_num) _
    constructor
    · simp only [hexVal, List.length_cons]
      calc hexDigitVal c * 16 ^ cs.length + hexVal cs
          < hexDigitVal c * 16 ^ cs.length + 16 ^ cs.length := by omega
        _ = (hexDigitVal c + 1) * 16 ^ cs.length := by ring
        _ ≤ 16 * 16 ^ cs.length := Nat.mul_le_mul_right _ (by omega)
        _ = 16 ^ (cs.length + 1) := by ring
    · simp only [hexVal, List.length_cons, hexStrN]
      have hdiv : (hexDigitVal c * 16 ^ cs.length + hexVal cs) / 16 ^ cs.length
          = hexDigitVal c := by
        rw [Nat.mul_comm, Nat.mul_add_div hL, Nat.div_eq_of_lt ihb, Nat.add_zero]
      have hmod : (hexDigitVal c * 16 ^ cs.length + hexVal cs) % 16 ^ cs.length
          = hexVal cs := by
        rw [Nat.mul_comm (hexDigitVal c) (16 ^ cs.length), Nat.mul_add_mod,
          Nat.mod_eq_of_lt ihb]
      rw [hdiv, hmod, hd, ihs]

/-- C4 (amended): a session id is the first 8 characters of the uuid
string, hence 8 lowercase hex digits; the id space is exactly the numbers
below 16 ^ 8 = 2 ^ 32 (the id is recovered from its 32-bit value), which is
strictly smaller than the 2 ^ 48 identifier space the claim requires.
Uniqueness of consecutive ids is therefore not guaranteed: two draws whose
uuid strings agree on the first 8 characters yield the same id. -/
theorem session_id_space_32bit (u : List Char) (h : validUuid u = true) :
    (sessionIdOfUuid u).length = 8
    ∧ (sessionIdOfUuid u).all isLowerHex = true
    ∧ hexVal (sessionIdOfUuid u) < 16 ^ 8
    ∧ hexStrN 8 (hexVal (sessionIdOfUuid u)) = sessionIdOfUuid u
    ∧ (16:ℕ) ^ 8 < 2 ^ 48 := by
  simp only [validUuid, Bool.and_eq_true, decide_eq_true_eq] at h
  obtain ⟨⟨⟨⟨⟨⟨⟨⟨⟨hlen, hhex⟩, _⟩, _⟩, _⟩, _⟩, _⟩, _⟩, _⟩, _⟩ := h
  simp only [sessionIdOfUuid]
  have hlen8 : (u.take 8).length = 8 := by simp [List.length_take, hlen]
  obtain ⟨hb, hs⟩ := hexRound (u.take 8) hhex
  rw [hlen8] at hb hs
  exact ⟨hlen8, hhex, hb, hs, by norm_num⟩

theorem session_id_space_32bit_witness :
    validUuid ("0123abcd-1111-4a2b-8ccc-000000000001".toList) = true
    ∧ ((sessionIdOfUuid ("0123abcd-1111-4a2b-8ccc-000000000001".toList)).length = 8
      ∧ (sessionIdOfUuid ("0123abcd-1111-4a2b-8ccc-000000000001".toList)).all
          isLowerHex = true
      ∧ hexVal (sessionIdOfUuid ("0123abcd-1111-4a2b-8ccc-000000000001".toList))
          < 16 ^ 8
      ∧ hexStrN 8 (hexVal (sessionIdOfUuid
          ("0123abcd-1111-4a2b-8ccc-000000000001".toList)))
        = sessionIdOfUuid ("0123abcd-1111-4a2b-8ccc-000000000001".toList)
      ∧ (16:ℕ) ^ 8 < 2 ^ 48) :=
  ⟨by decide, session_id_space_32bit _ (by decide)⟩

/-- C4 counterexample: two distinct well-formed uuid draws that agree on
their first 8 characters produce the same session id, so two sequential
put operations can return the same id. -/
theorem session_id_collision_cex :
    validUuid ("0123abcd-1111-4a2b-8ccc-000000000001".toList) = true
    ∧ validUuid ("0123abcd-2222-4d3e-9ddd-000000000002".toList) = true
    ∧ "0123abcd-1111-4a2b-8ccc-000000000001".toList
      ≠ "0123abcd-2222-4d3e-9ddd-000000000002".toList
    ∧ sessionIdOfUuid ("0123abcd-1111-4a2b-8ccc-000000000001".toList)
      = sessionIdOfUuid ("0123abcd-2222-4d3e-9ddd-000000000002".toList) := by
  decide

theorem leads_append_self (p x : List Char) : leads p (p ++ x) = true := by
  induction p with
  | nil => rfl
  | cons c p ih => simp [leads, ih]

theorem leads_dest (p s : List Char) (h : leads p s = true) :
    ∃ x, s = p ++ x := by
  induction p generalizing s with
  | nil => exact ⟨s, rfl⟩
  | cons c p ih =>
    cases s with
    | nil => simp [leads] at h
    | cons d s =>
      simp only [leads, Bool.and_eq_true, decide_eq_true_eq] at h
      obtain ⟨rfl, h2⟩ := h
      obtain ⟨x, rfl⟩ := ih s h2
      exact ⟨x, rfl⟩

theorem leads_mono_append (a b x : List Char) (h : leads a b = true) :
    leads a (b ++ x) = true := by
  obtain ⟨y, rfl⟩ := leads_dest a b h
  rw [List.append_assoc]
  exact leads_append_self a (y ++ x)

theorem leads_comparable (p q t : List Char) (h1 : leads p t = true)
    (h2 : leads q t = true) : leads p q = true ∨ leads q p = true := by
  induction t generalizing p q with
  | nil =>
    cases p with
    | nil => exact Or.inl rfl
    | cons a p => simp [leads] at h1
  | cons c t ih =>
    cases p with
    | nil => exact Or.inl rfl
    | cons a p =>
      cases q with
      | nil => exact Or.inr rfl
      | cons b q =>
        simp only [leads, Bool.and_eq_true, decide_eq_true_eq] at h1 h2
        obtain ⟨rfl, h1⟩ := h1
        obtain ⟨rfl, h2⟩ := h2
        rcases ih p q h1 h2 with h | h
        · exact Or.inl (by simp [leads, h])
        · exact Or.inr (by simp [leads, h])

theorem takeWhile_no_space (rest post : List Char)
    (hchars : ∀ c ∈ rest, pySpace c = false)
    (hpost : post = [] ∨ pySpace (post.headD ' ') = true) :
    (rest ++ post).takeWhile (fun c => !(pySpace c)) = rest := by
  induction rest with
  | nil =>
    rcases hpost with rfl | hh
    · rfl
    · cases post with
      | nil => rfl
      | cons c cs => simp_all [List.takeWhile]
  | cons r rest ih =>
    have hr : pySpace r = false := hchars r (List.mem_cons_self r rest)
    have ih2 := ih (fun c hc => hchars c (List.mem_cons_of_mem r hc))
    simp [List.takeWhile, hr, ih2]

theorem tryPat_self (p rest post : List Char) (hr : rest ≠ [])
    (hchars : ∀ c ∈ rest, pySpace c = false)
    (hpost : post = [] ∨ pySpace (post.headD ' ') = true) :
    tryPat p ((p ++ rest) ++ post) = some (p ++ rest) := by
  have hl : leads p ((p ++ rest) ++ post) = true := by
    rw [List.append_assoc]
    exact leads_append_self p (rest ++ post)
  have hd : ((p ++ rest) ++ post).drop p.length = rest ++ post := by
    rw [List.append_assoc]
    exact List.drop_left p (rest ++ post)
  have htw := takeWhile_no_space rest post hchars hpost
  simp [tryPat, hl, hd, htw, hr, leads_append_self]

theorem tryPat_nil (pat : List Char) : tryPat pat [] = none := by
  cases pat with
  | nil => rfl
  | cons c p => simp [tryPat, leads]

theorem matchPats_none (ps : List (List Char)) (s : List Char)
    (h : ∀ q ∈ ps, tryPat q s = none) : matchPats ps s = none := by
  induction ps with
  | nil => rfl
  | cons pat ps ih =>
    have h0 := h pat (List.mem_cons_self pat ps)
    simp only [matchPats, h0]
    exact ih (fun q hq => h q (List.mem_cons_of_mem pat hq))

theorem matchPats_nil_s (ps : List (List Char)) : matchPats ps [] = none :=
  matchPats_none ps [] (fun q _ => tryPat_nil q)

theorem matchPats_some_unique (ps : List (List Char)) (p s u : List Char)
    (hp : p ∈ ps) (hsome : tryPat p s = some u)
    (hothers : ∀ r ∈ ps, r ≠ p → tryPat r s = none) :
    matchPats ps s = some u := by
  induction ps with
  | nil => simp at hp
  | cons pat ps ih =>
    by_cases hr : pat = p
    · subst hr
      simp [matchPats, hsome]
    · have h0 := hothers pat (List.mem_cons_self pat ps) hr
      simp only [matchPats, h0]
      have hp2 : p ∈ ps := by
        rcases List.mem_cons.mp hp with rfl | hm
        · exact absurd rfl hr
        · exact hm
      exact ih hp2 (fun r hm hne => hothers r (List.mem_cons_of_mem pat hm) hne)

theorem searchPats_none (ps : List (List Char)) (t : List Char)
    (h : ∀ i, matchPats ps (t.drop i) = none) : searchPats ps t = none := by
  induction t with
  | nil => rfl
  | cons c cs ih =>
    have h0 := h 0
    rw [List.drop_zero] at h0
    simp only [searchPats, h0]
    refine ih (fun i => ?_)
    have := h (i + 1)
    rwa [List.drop_succ_cons] at this

theorem searchPats_at (ps : List (List Char)) (t : List Char) (i : Nat)
    (u : List Char)
    (hbefore : ∀ j < i, matchPats ps (t.drop j) = none)
    (hi : matchPats ps (t.drop i) = some u) :
    searchPats ps t = some u := by
  induction t generalizing i with
  | nil =>
    rw [List.drop_nil] at hi
    rw [matchPats_nil_s] at hi
    exact absurd hi (by simp)
  | cons c cs ih =>
    cases i with
    | zero =>
      rw [List.drop_zero] at hi
      simp [searchPats, hi]
    | succ i =>
      have h0 := hbefore 0 (Nat.succ_pos i)
      rw [List.drop_zero] at h0
      simp only [searchPats, h0]
      rw [List.drop_succ_cons] at hi
      refine ih i (fun j hj => ?_) hi
      have := hbefore (j + 1) (Nat.succ_lt_succ hj)
      rwa [List.drop_succ_cons] at this

theorem findPlat_some_unique (l : List (String × List (List Char)))
    (kp : String × List (List Char)) (t u : List Char)
    (hmem : kp ∈ l) (hs : searchPats kp.2 t = some u)
    (hothers : ∀ kp2 ∈ l, kp2 ≠ kp → searchPats kp2.2 t = none) :
    findPlat l t = some u := by
  induction l with
  | nil => simp at hmem
  | cons a l ih =>
    by_cases ha : a = kp
    · subst ha
      simp [findPlat, hs]
    · have h0 := hothers a (List.mem_cons_self a l) ha
      simp only [findPlat, h0]
      have hm2 : kp ∈ l := by
        rcases List.mem_cons.mp hmem with rfl | hm
        · exact absurd rfl ha
        · exact hm
      exact ih hm2 (fun kp2 hm hne => hothers kp2 (List.mem_cons_of_mem a hm) hne)

theorem urlStart_false_elim (t : List Char) (i : Nat)
    (h : urlStartAt t i = false) (pat : List Char) (hm : pat ∈ allPats) :
    tryPat pat (t.drop i) = none := by
  rcases htp : tryPat pat (t.drop i) with _ | r
  · rfl
  · exfalso
    have : urlStartAt t i = true :=
      List.any_eq_true.mpr ⟨pat, hm, by simp [htp]⟩
    simp [this] at h

theorem containsSeg_empty (x : List Char) : containsSeg [] x = true := by
  cases x <;> simp [containsSeg, leads, List.isEmpty]

theorem containsSeg_append_left (key p x : List Char)
    (h : containsSeg key p = true) : containsSeg key (p ++ x) = true := by
  induction p with
  | nil =>
    simp only [containsSeg, List.isEmpty_iff] at h
    subst h
    exact containsSeg_empty x
  | cons c p ih =>
    simp only [containsSeg, Bool.or_eq_true] at h ⊢
    rcases h with h | h
    · exact Or.inl (leads_mono_append key (c :: p) x h)
    · exact Or.inr (ih h)

theorem patsOkFact : ∀ p ∈ allPats, ∀ q ∈ allPats,
    p = q ∨ (leads p q = false ∧ leads q p = false) := by decide

theorem patsDisjointFact : ∀ a ∈ URL_PATTERNS, ∀ b ∈ URL_PATTERNS,
    a = b ∨ ∀ q ∈ a.2, ¬ q ∈ b.2 := by decide

theorem keyInPatFact : ∀ kp ∈ URL_PATTERNS, ∀ q ∈ kp.2,
    q ∈ youtuBePats ∨ containsSeg kp.1.toList q = true := by decide

theorem capsFact : ∀ kp ∈ URL_PATTERNS, pyCapitalize kp.1 ≠ "Unknown" := by decide

theorem memAllFact : ∀ kp ∈ URL_PATTERNS, ∀ q ∈ kp.2, q ∈ allPats := by decide

theorem detect_not_unknown (u : List Char)
    (h : ∃ kp ∈ URL_PATTERNS, containsSeg kp.1.toList u = true) :
    detect_platform u ≠ "Unknown" := by
  have hs : (URL_PATTERNS.find? (fun kp => containsSeg kp.1.toList u)).isSome :=
    List.find?_isSome.mpr h
  rcases hfind : URL_PATTERNS.find? (fun kp => containsSeg kp.1.toList u)
      with _ | y
  · rw [hfind] at hs
    simp at hs
  · have hy : y ∈ URL_PATTERNS := List.mem_of_find?_eq_some hfind
    simp only [detect_platform, hfind]
    exact capsFact y hy

/-- C5 (amended): for every text containing exactly one supported-platform
URL (a pattern head at one position, followed by a non-empty non-whitespace
run, with no other match start anywhere), extract_url returns exactly that
URL; detect_platform on the extracted URL is non-"Unknown" whenever the
matched head is not one of the youtu.be heads — a youtu.be short link is
extracted but classifies as "Unknown". -/
theorem extract_url_platform_amended
    (pre p rest post : List Char) (kp : String × List (List Char))
    (hkp : kp ∈ URL_PATTERNS) (hp : p ∈ kp.2)
    (hr : rest ≠ []) (hchars : ∀ c ∈ rest, pySpace c = false)
    (hpost : post = [] ∨ pySpace (post.headD ' ') = true)
    (honly : ∀ i < (pre ++ (p ++ rest) ++ post).length, i ≠ pre.length →
      urlStartAt (pre ++ (p ++ rest) ++ post) i = false) :
    extract_url (pre ++ (p ++ rest) ++ post) = some (p ++ rest)
    ∧ (p ∉ youtuBePats → detect_platform (p ++ rest) ≠ "Unknown") := by
  have hassoc : pre ++ (p ++ rest) ++ post = pre ++ ((p ++ rest) ++ post) :=
    List.append_assoc pre (p ++ rest) post
  have hdrop : (pre ++ (p ++ rest) ++ post).drop pre.length
      = (p ++ rest) ++ post := by
    rw [hassoc]
    exact List.drop_left pre ((p ++ rest) ++ post)
  have hself : tryPat p ((p ++ rest) ++ post) = some (p ++ rest) :=
    tryPat_self p rest post hr hchars hpost
  have hpall : p ∈ allPats := memAllFact kp hkp p hp
  have hothers : ∀ q ∈ allPats, q ≠ p →
      tryPat q ((p ++ rest) ++ post) = none := by
    intro q hq hne
    cases hlq : leads q ((p ++ rest) ++ post) with
    | false =>
      unfold tryPat
      rw [hlq]
      rfl
    | true =>
      exfalso
      have hlp : leads p ((p ++ rest) ++ post) = true := by
        rw [List.append_assoc]
        exact leads_append_self p (rest ++ post)
      rcases patsOkFact q hq p hpall with heq | ⟨hf1, hf2⟩
      · exact hne heq
      · rcases leads_comparable q p ((p ++ rest) ++ post) hlq hlp with hc | hc
        · rw [hf1] at hc
          exact Bool.false_ne_true hc
        · rw [hf2] at hc
          exact Bool.false_ne_true hc
  have hmk : matchPats kp.2 ((pre ++ (p ++ rest) ++ post).drop pre.length)
      = some (p ++ rest) := by
    rw [hdrop]
    exact matchPats_some_unique kp.2 p ((p ++ rest) ++ post) (p ++ rest) hp hself
      (fun r hrm hne => hothers r (memAllFact kp hkp r hrm) hne)
  have hnone : ∀ kp2 ∈ URL_PATTERNS, ∀ i, i ≠ pre.length →
      matchPats kp2.2 ((pre ++ (p ++ rest) ++ post).drop i) = none := by
    intro kp2 hk2 i hne
    by_cases hil : i < (pre ++ (p ++ rest) ++ post).length
    · have hu := honly i hil hne
      exact matchPats_none _ _
        (fun q hq => urlStart_false_elim _ i hu q (memAllFact kp2 hk2 q hq))
    · rw [List.drop_eq_nil_of_le (Nat.le_of_not_lt hil)]
      exact matchPats_nil_s kp2.2
  have hrlen : rest.length ≠ 0 := by
    cases rest with
    | nil => exact absurd rfl hr
    | cons a b => simp
  have hlt : pre.length < (pre ++ (p ++ rest) ++ post).length := by
    simp only [List.length_append]
    omega
  have hsk : searchPats kp.2 (pre ++ (p ++ rest) ++ post) = some (p ++ rest) :=
    searchPats_at kp.2 _ pre.length _
      (fun j hj => hnone kp hkp j (Nat.ne_of_lt hj)) hmk
  have hsother : ∀ kp2 ∈ URL_PATTERNS, kp2 ≠ kp →
      searchPats kp2.2 (pre ++ (p ++ rest) ++ post) = none := by
    intro kp2 hk2 hne
    apply searchPats_none
    intro i
    by_cases hi : i = pre.length
    · subst hi
      rw [hdrop]
      apply matchPats_none
      intro q hq
      apply hothers q (memAllFact kp2 hk2 q hq)
      intro hqp
      rcases patsDisjointFact kp2 hk2 kp hkp with heq | hdisj
      · exact hne heq
      · exact hdisj q hq (by rw [hqp]; exact hp)
    · exact hnone kp2 hk2 i hi
  refine ⟨?_, ?_⟩
  · show findPlat URL_PATTERNS (pre ++ (p ++ rest) ++ post) = some (p ++ rest)
    exact findPlat_some_unique URL_PATTERNS kp _ _ hkp hsk hsother
  · intro hnyb
    apply detect_not_unknown
    refine ⟨kp, hkp, ?_⟩
    have hck : containsSeg kp.1.toList p = true := by
      rcases keyInPatFact kp hkp p hp with hyb | hc
      · exact absurd hyb hnyb
      · exact hc
    exact containsSeg_append_left kp.1.toList p rest hck

theorem extract_url_platform_amended_witness :
    extract_url ("see ".toList
        ++ ("https://vk.com/video".toList ++ "-1_2".toList) ++ " ok".toList)
      = some ("https://vk.com/video".toList ++ "-1_2".toList)
    ∧ detect_platform ("https://vk.com/video".toList ++ "-1_2".toList)
      ≠ "Unknown" := by
  have h := extract_url_platform_amended "see ".toList
    "https://vk.com/video".toList "-1_2".toList " ok".toList ("vk", vkPats)
    (by decide) (by decide) (by decide) (by decide) (by decide) (by decide)
  exact ⟨h.1, h.2 (by decide)⟩

/-- C5 counterexample: the text contains exactly one supported URL, a
youtu.be short link; extract_url returns it, yet detect_platform classifies
it as "Unknown", refuting the claim for the youtube family. -/
theorem detect_platform_unknown_cex :
    extract_url ("watch https://youtu.be/dQw4 now".toList)
      = some ("https://youtu.be/dQw4".toList)
    ∧ detect_platform ("https://youtu.be/dQw4".toList) = "Unknown"
    ∧ urlStartAt ("watch https://youtu.be/dQw4 now".toList) 6 = true
    ∧ (∀ i < ("watch https://youtu.be/dQw4 now".toList).length, i ≠ 6 →
        urlStartAt ("watch https://youtu.be/dQw4 now".toList) i = false) := by
  decide
